import Mathlib

/-!
Verification of the Ronin Ecosystem Tracker core (cache store, provider
gateway, dataset normalizer, analytics engine) against its specification.

The Python sources are shallowly embedded: pandas DataFrames become the
`DFrame` structure (a list of named, dtype-tagged columns plus a list of
rows of cells), machine floats become rationals (`ℚ`), dictionaries become
association lists, and the network / filesystem effects of the provider
gateway become explicit parameters (an upstream-response oracle, a cache
state threaded in and out, and a counter of upstream calls made).
-/

/-- A cell value of a pandas DataFrame.  `num` models a finite float or int,
`inf` models `±np.inf` (`inf true` is `+inf`), `nan` models a float `NaN`,
`str` a Python string, `date` a `datetime64` value (as an integer
timestamp), `nat` models pandas `NaT` (missing datetime), and `null` models
a Python `None` held in an object column. -/
inductive Val where
  | num (q : ℚ)
  | inf (pos : Bool)
  | nan
  | str (s : String)
  | date (d : Int)
  | nat
  | null
deriving DecidableEq, Repr

/-- The pandas dtype of a column, as far as the embedded code inspects it:
`numeric` stands for the int/float dtypes selected by
`select_dtypes(include=[np.number])`, `datetime` for `datetime64`, and
`object` for everything else. -/
inductive DType where
  | numeric
  | datetime
  | object
deriving DecidableEq, Repr

/-- A pandas DataFrame: named, dtype-tagged columns and rows of cells.
Cell `j` of each row belongs to column `j`. -/
structure DFrame where
  cols : List (String × DType)
  rows : List (List Val)
deriving DecidableEq, Repr

/-- Total order on cell values used to model `sort_values`: kinds are
ranked (`-inf` and numbers and `+inf`, then datetimes, then strings, then
`None`, then `NaN`/`NaT` last, matching the `na_position="last"` default),
and values of the same kind compare by their payload.  Cross-kind
comparisons raise `TypeError` in pandas and never occur on the homogeneous
columns the code sorts; the fixed kind rank makes the model total. -/
def valKind : Val → Nat
  | .inf pos => if pos then 2 else 0
  | .num _ => 1
  | .date _ => 3
  | .str _ => 4
  | .null => 5
  | .nan => 6
  | .nat => 7

/-- The comparison function for `sort_values` over cell values. -/
def valLe (a b : Val) : Bool :=
  if valKind a = valKind b then
    match a, b with
    | .num p, .num q => decide (p ≤ q)
    | .date c, .date d => decide (c ≤ d)
    | .str s, .str t => decide (s ≤ t)
    | _, _ => true
  else decide (valKind a < valKind b)

theorem valLe_total (a b : Val) : valLe a b || valLe b a := by
  unfold valLe
  by_cases h : valKind a = valKind b
  · simp only [h, if_pos, if_true]
    cases a <;> cases b <;> simp_all [valKind] <;>
      first
        | omega
        | exact le_total _ _
  · have h2 : ¬ valKind b = valKind a := fun hh => h hh.symm
    simp only [if_neg h, if_neg h2]
    simp only [decide_eq_true_eq, Bool.or_eq_true]
    omega

theorem valLe_trans (a b c : Val) : valLe a b → valLe b c → valLe a c := by
  unfold valLe
  by_cases hab : valKind a = valKind b <;> by_cases hbc : valKind b = valKind c
  · have hac : valKind a = valKind c := hab.trans hbc
    simp only [if_pos hab, if_pos hbc, if_pos hac]
    cases a <;> cases b <;> cases c <;> simp_all [valKind] <;>
      first
        | omega
        | (intro h1 h2; exact le_trans h1 h2)
        | (rename_i x y z; cases x <;> cases y <;> cases z <;> simp_all)
  · have hac : ¬ valKind a = valKind c := by rw [hab]; exact hbc
    simp only [if_pos hab, if_neg hbc, if_neg hac]
    intro _ h2
    simpa [hab] using h2
  · have hac : ¬ valKind a = valKind c := by rw [hbc] at hab; exact hab
    simp only [if_neg hab, if_pos hbc, if_neg hac]
    intro h1 _
    simpa [hbc] using h1
  · simp only [if_neg hab, if_neg hbc, decide_eq_true_eq]
    intro h1 h2
    by_cases hac : valKind a = valKind c
    · omega
    · simp only [if_neg hac, decide_eq_true_eq]; omega

/-!
## Dataset Normalizer

`RoninDataFetcher._clean_dataframe` (src/ronin_ecosystem_tracker.py,
lines 386-407).  The `query_key` parameter of the Python method is unused
by its body and therefore omitted here.  Date parsing is modeled with two
oracle parameters: `dparse` gives the outcome of `pd.to_datetime` on a
string cell (`none` when parsing raises), and `dnum` gives the timestamp
`pd.to_datetime` assigns to a numeric cell (which always succeeds).
-/

/-- The outcome of `pd.to_datetime` on one cell: datetimes map to
themselves, `NaN`/`NaT`/`None` map to `NaT`, numbers map to an epoch
timestamp, strings parse or fail, and `±inf` raises (`none`). -/
def cellToDatetime (dparse : String → Option Int) (dnum : ℚ → Int) : Val → Option Val
  | .date d => some (.date d)
  | .nat => some .nat
  | .nan => some .nat
  | .null => some .nat
  | .num q => some (.date (dnum q))
  | .str s => (dparse s).map Val.date
  | .inf _ => none

/-- `safe_date_conversion(df, name)`: if a column named `name` exists and
every cell of it converts, the column is replaced by its converted cells
and its dtype becomes `datetime`; a failing cell makes `pd.to_datetime`
raise, the exception is caught, and the frame is left unchanged. -/
def convertDateCol (dparse : String → Option Int) (dnum : ℚ → Int) (name : String)
    (df : DFrame) : DFrame :=
  match df.cols.findIdx? (fun p => p.1 == name) with
  | none => df
  | some i =>
    if df.rows.all (fun r => (cellToDatetime dparse dnum (r.getD i Val.null)).isSome) then
      { cols := df.cols.set i (name, DType.datetime),
        rows := df.rows.map
          (fun r => r.set i ((cellToDatetime dparse dnum (r.getD i Val.null)).getD Val.nat)) }
    else df

/-- The date-like column names probed by `_clean_dataframe`. -/
def dateColNames : List String := ["date", "week", "timestamp"]

/-- The date-conversion loop `for col in ["date", "week", "timestamp"]`. -/
def convertDateCols (dparse : String → Option Int) (dnum : ℚ → Int) (df : DFrame) : DFrame :=
  dateColNames.foldl (fun d c => convertDateCol dparse dnum c d) df

/-- One cell of `df[col].replace([np.inf, -np.inf], np.nan)` followed by
`.fillna(0)`: infinities and `NaN` become `0`, everything else is kept. -/
def coerceNumCell : Val → Val
  | .inf _ => .num 0
  | .nan => .num 0
  | v => v

/-- Apply `coerceNumCell` to the cells of a row that sit under a column of
numeric dtype, walking the column list and the row in lockstep. -/
def coerceRowAux : List (String × DType) → List Val → List Val
  | _, [] => []
  | [], vs => vs
  | c :: cs, v :: vs =>
    (if c.2 = DType.numeric then coerceNumCell v else v) :: coerceRowAux cs vs

/-- The numeric-cleaning loop over `df.select_dtypes(include=[np.number])`:
every cell of every numeric-dtype column has `±inf` and `NaN` coerced to
`0`.  Dtypes are unchanged. -/
def coerceNumericCols (df : DFrame) : DFrame :=
  { cols := df.cols, rows := df.rows.map (coerceRowAux df.cols) }

/-- The cell a row holds in column `i` (missing cells read as `None`). -/
def keyAt (i : Nat) (r : List Val) : Val := r.getD i Val.null

/-- `drop_duplicates(subset=["date"], keep="last")`: a row is kept iff no
later row carries the same value in column `i`; kept rows stay in order. -/
def keepLast (i : Nat) : List (List Val) → List (List Val)
  | [] => []
  | r :: rs =>
    if rs.any (fun r2 => keyAt i r2 == keyAt i r) then keepLast i rs
    else r :: keepLast i rs

/-- The de-duplication step of `_clean_dataframe`: applies only when a
column named `date` exists and the frame has more than one row. -/
def dropDupDates (df : DFrame) : DFrame :=
  match df.cols.findIdx? (fun p => p.1 == "date") with
  | none => df
  | some i =>
    if df.rows.length > 1 then { cols := df.cols, rows := keepLast i df.rows } else df

/-- `df.sort_values(df.columns[0])`: rows sorted ascending by their first
cell, with `NaN`/`NaT` last per `na_position="last"`.  pandas' default
`kind="quicksort"` (numpy introsort) is not stable, so on tie runs the
resulting order of equal-key rows is unspecified; the sort is embedded as
a stable mergeSort, and every theorem below that reads a sorted frame
restricts itself to inputs whose sort keys are pairwise distinct (or to
singleton row lists), where every comparison sort — stable or not —
returns the same, unique sorted permutation, making the choice of
algorithm immaterial. -/
def sortByFirstCol (df : DFrame) : DFrame :=
  { cols := df.cols,
    rows := df.rows.mergeSort (fun a b => valLe (keyAt 0 a) (keyAt 0 b)) }

/-- `RoninDataFetcher._clean_dataframe`: on a non-empty frame, convert the
date-like columns, zero out non-finite numeric cells, de-duplicate on the
`date` column keeping the last occurrence, and sort by the first column. -/
def cleanDataFrame (dparse : String → Option Int) (dnum : ℚ → Int) (df : DFrame) : DFrame :=
  if df.rows.isEmpty || df.cols.isEmpty then df
  else
    let df1 := convertDateCols dparse dnum df
    let df2 := coerceNumericCols df1
    let df3 := dropDupDates df2
    if df3.cols.isEmpty then df3 else sortByFirstCol df3

/-- Concrete date parser for the counterexample: the literal
`"2024-01-01"` parses (as in `pd.to_datetime`), `"garbage"` does not. -/
def cexParse : String → Option Int := fun s => if s = "2024-01-01" then some 19723 else none

/-- Concrete numeric-to-timestamp map for the counterexample. -/
def cexNum : ℚ → Int := fun q => q.floor

/-- Counterexample frame: two rows with the same `date` value; the first
row's `week` cell is unparsable, the second row's parses. -/
def cexDF : DFrame :=
  { cols := [("date", DType.object), ("week", DType.object)],
    rows := [[Val.str "2024-01-01", Val.str "garbage"],
             [Val.str "2024-01-01", Val.str "2024-01-01"]] }

theorem cexDF_clean_eval : cleanDataFrame cexParse cexNum cexDF =
    { cols := [("date", DType.datetime), ("week", DType.object)],
      rows := [[Val.date 19723, Val.str "2024-01-01"]] } := by
  simp [cleanDataFrame, convertDateCols, dateColNames, convertDateCol, cellToDatetime,
        cexParse, cexNum, cexDF, coerceNumericCols, coerceRowAux, coerceNumCell,
        dropDupDates, keepLast, keyAt, sortByFirstCol, List.findIdx?_cons]

/-- The second application of the normalizer on the counterexample frame:
after de-duplication removed the row with the unparsable `week` cell, the
`week` column now fully parses and is converted, changing the frame. -/
theorem cexDF_clean_clean_eval :
    cleanDataFrame cexParse cexNum (cleanDataFrame cexParse cexNum cexDF) =
      { cols := [("date", DType.datetime), ("week", DType.datetime)],
        rows := [[Val.date 19723, Val.date 19723]] } := by
  rw [cexDF_clean_eval]
  simp [cleanDataFrame, convertDateCols, dateColNames, convertDateCol, cellToDatetime,
        cexParse, cexNum, coerceNumericCols, coerceRowAux, coerceNumCell,
        dropDupDates, keepLast, keyAt, sortByFirstCol, List.findIdx?_cons]

/-- C3 counterexample: `normalize(normalize(x, k), k) == normalize(x, k)`
fails for `RoninDataFetcher._clean_dataframe`.  In `cexDF` the two rows
share one `date` value; the `week` column fails `pd.to_datetime` on the
full table (cell `"garbage"`), so it is left raw, then `drop_duplicates`
removes the offending row.  On the produced table the `week` column parses,
so a second normalization converts it and yields a different table. -/
theorem clean_dataframe_not_idempotent :
    cleanDataFrame cexParse cexNum (cleanDataFrame cexParse cexNum cexDF) ≠
      cleanDataFrame cexParse cexNum cexDF := by
  rw [cexDF_clean_clean_eval, cexDF_clean_eval]
  decide

/-- Writing back the value a list already holds at a position (or writing
past the end) leaves the list unchanged. -/
theorem set_getD_self {α : Type} : ∀ (r : List α) (i : Nat) (d : α), r.set i (r.getD i d) = r
  | [], _, _ => rfl
  | _ :: _, 0, _ => rfl
  | a :: as, i + 1, d => by simpa using congrArg (a :: ·) (set_getD_self as i d)

/-- Writing back the value a list holds at a position leaves it unchanged. -/
theorem set_of_getElem? {α : Type} {l : List α} {j : Nat} {a : α} (h : l[j]? = some a) :
    l.set j a = l := by
  have hs := set_getD_self l j a
  rwa [List.getD_eq_getElem?_getD, h, Option.getD_some] at hs

/-- Cell-level date conversion is idempotent on its own outputs. -/
theorem cellToDatetime_idem (p : String → Option Int) (n : ℚ → Int) {v w : Val}
    (h : cellToDatetime p n v = some w) : cellToDatetime p n w = some w := by
  cases v with
  | num q => simp [cellToDatetime] at h; subst h; rfl
  | inf pos => simp [cellToDatetime] at h
  | nan => simp [cellToDatetime] at h; subst h; rfl
  | str s =>
    simp [cellToDatetime] at h
    obtain ⟨d, _, hd⟩ := h
    subst hd
    rfl
  | date d => simp [cellToDatetime] at h; subst h; rfl
  | nat => simp [cellToDatetime] at h; subst h; rfl
  | null => simp [cellToDatetime] at h; subst h; rfl

/-- Numeric cell coercion is idempotent. -/
theorem coerceNumCell_idem (v : Val) : coerceNumCell (coerceNumCell v) = coerceNumCell v := by
  cases v <;> rfl

/-- Row-level numeric coercion is idempotent. -/
theorem coerceRowAux_idem : ∀ (cols : List (String × DType)) (r : List Val),
    coerceRowAux cols (coerceRowAux cols r) = coerceRowAux cols r
  | _, [] => by cases ‹List (String × DType)› <;> rfl
  | [], _ :: _ => rfl
  | c :: cs, v :: vs => by
    by_cases h : c.2 = DType.numeric <;>
      simp [coerceRowAux, h, coerceNumCell_idem, coerceRowAux_idem cs vs]

/-- Numeric coercion preserves row length. -/
theorem coerceRowAux_length : ∀ (cols : List (String × DType)) (r : List Val),
    (coerceRowAux cols r).length = r.length
  | _, [] => by cases ‹List (String × DType)› <;> rfl
  | [], _ :: _ => rfl
  | c :: cs, v :: vs => by simp [coerceRowAux, coerceRowAux_length cs vs]

/-- Numeric coercion leaves cells of non-numeric-dtype columns unchanged. -/
theorem coerceRowAux_getD_of_not_numeric :
    ∀ (cols : List (String × DType)) (r : List Val) (i : Nat),
    (cols.getD i ("", DType.object)).2 ≠ DType.numeric →
    (coerceRowAux cols r).getD i Val.null = r.getD i Val.null
  | _, [], i, _ => by cases ‹List (String × DType)› <;> rfl
  | [], v :: vs, i, h => rfl
  | c :: cs, v :: vs, 0, h => by
    simp only [List.getD_cons_zero] at h ⊢
    simp [coerceRowAux, if_neg h]
  | c :: cs, v :: vs, i + 1, h => by
    simp only [List.getD_cons_succ] at h ⊢
    have ih := coerceRowAux_getD_of_not_numeric cs vs i h
    by_cases hc : c.2 = DType.numeric <;>
      simpa [coerceRowAux, hc] using ih

/-- `keep="last"` de-duplication selects a sublist of the input rows. -/
theorem keepLast_sublist (i : Nat) : ∀ rows : List (List Val), List.Sublist (keepLast i rows) rows
  | [] => List.Sublist.refl []
  | r :: rs => by
    unfold keepLast
    by_cases h : rs.any (fun r2 => keyAt i r2 == keyAt i r)
    · simp only [h, if_true]
      exact (keepLast_sublist i rs).cons r
    · simp only [h, if_false]
      exact (keepLast_sublist i rs).cons₂ r

/-- After `keep="last"` de-duplication, the kept rows carry pairwise
distinct keys. -/
theorem keepLast_pairwise (i : Nat) : ∀ rows : List (List Val),
    (keepLast i rows).Pairwise (fun a b => keyAt i a ≠ keyAt i b)
  | [] => List.Pairwise.nil
  | r :: rs => by
    unfold keepLast
    by_cases h : rs.any (fun r2 => keyAt i r2 == keyAt i r)
    · simp only [h, if_true]
      exact keepLast_pairwise i rs
    · simp only [h, if_false]
      refine List.Pairwise.cons (fun b hb hkey => ?_) (keepLast_pairwise i rs)
      simp only [List.any_eq_true, beq_iff_eq, not_exists, not_and] at h
      exact h b ((keepLast_sublist i rs).mem hb) hkey.symm

/-- De-duplication is the identity on rows with pairwise distinct keys. -/
theorem keepLast_eq_self (i : Nat) : ∀ {rows : List (List Val)},
    rows.Pairwise (fun a b => keyAt i a ≠ keyAt i b) → keepLast i rows = rows
  | [], _ => rfl
  | r :: rs, h => by
    rcases List.pairwise_cons.mp h with ⟨hr, hrs⟩
    unfold keepLast
    have hany : rs.any (fun r2 => keyAt i r2 == keyAt i r) = false := by
      simp only [List.any_eq_false, beq_iff_eq]
      exact fun r2 h2 he => hr r2 h2 he.symm
    simp [hany, keepLast_eq_self i hrs]

/-- De-duplication never empties a non-empty row list. -/
theorem keepLast_ne_nil (i : Nat) : ∀ {rows : List (List Val)},
    rows ≠ [] → keepLast i rows ≠ []
  | [], h => absurd rfl h
  | r :: rs, _ => by
    unfold keepLast
    by_cases h : rs.any (fun r2 => keyAt i r2 == keyAt i r)
    · simp only [h, if_true]
      have hne : rs ≠ [] := by
        intro he
        subst he
        simp at h
      exact keepLast_ne_nil i hne
    · simp [h]

/-- Mapping a function that fixes every element is the identity. -/
theorem map_eq_self {α : Type} {f : α → α} : ∀ {l : List α}, (∀ x ∈ l, f x = x) → l.map f = l
  | [], _ => rfl
  | x :: xs, h => by
    rw [List.map_cons, h x (List.mem_cons_self x xs),
        map_eq_self (fun y hy => h y (List.mem_cons_of_mem x hy))]

/-- The index of the column named `name`, as probed by
`safe_date_conversion` and `drop_duplicates`. -/
def nameIdx (df : DFrame) (name : String) : Option Nat :=
  df.cols.findIdx? (fun p => p.1 == name)

theorem nameIdx_lt {df : DFrame} {name : String} {i : Nat} (h : nameIdx df name = some i) :
    i < df.cols.length := by
  rcases List.findIdx?_eq_some_iff_getElem.mp h with ⟨hlt, _, _⟩
  exact hlt

theorem nameIdx_name {df : DFrame} {name : String} {i : Nat} (h : nameIdx df name = some i) :
    (df.cols.getD i ("", DType.object)).1 = name := by
  rcases List.findIdx?_eq_some_iff_getElem.mp h with ⟨hlt, hp, _⟩
  simp only [beq_iff_eq] at hp
  rw [List.getD_eq_getElem?_getD, List.getElem?_eq_getElem hlt, Option.getD_some]
  exact hp

/-- Column `i` is a fully converted date column: its dtype is `datetime`
and every in-range cell of it is a fixed point of `pd.to_datetime`. -/
def ColFixed (p : String → Option Int) (n : ℚ → Int) (df : DFrame)
    (name : String) (i : Nat) : Prop :=
  df.cols.getD i ("", DType.object) = (name, DType.datetime) ∧
  ∀ r ∈ df.rows, i < r.length →
    cellToDatetime p n (r.getD i Val.null) = some (r.getD i Val.null)

theorem convertDateCol_establishes (p : String → Option Int) (n : ℚ → Int)
    {df : DFrame} {name : String} {i : Nat}
    (hidx : nameIdx df name = some i)
    (hp : ∀ r ∈ df.rows, (cellToDatetime p n (r.getD i Val.null)).isSome) :
    ColFixed p n (convertDateCol p n name df) name i := by
  have hall : df.rows.all
      (fun r => (cellToDatetime p n (r.getD i Val.null)).isSome) = true := by
    simp only [List.all_eq_true]
    exact fun r hr => hp r hr
  unfold convertDateCol
  split
  · next heq =>
      unfold nameIdx at hidx
      rw [heq] at hidx
      cases hidx
  next i2 heq =>
  have heq2 : nameIdx df name = some i2 := heq
  rw [heq2] at hidx
  obtain rfl : i2 = i := by simpa using hidx
  rw [hall]
  simp only [if_true]
  constructor
  · rw [List.getD_eq_getElem?_getD, List.getElem?_set_self (nameIdx_lt heq2), Option.getD_some]
  · intro r2 hr2 hlen
    rcases List.mem_map.mp hr2 with ⟨r, hr, hmap⟩
    subst hmap
    rw [List.length_set] at hlen
    rw [List.getD_eq_getElem?_getD, List.getElem?_set_self hlen, Option.getD_some]
    rcases Option.isSome_iff_exists.mp (hp r hr) with ⟨w, hw⟩
    rw [hw, Option.getD_some]
    exact cellToDatetime_idem p n hw

theorem convertDateCol_preserves (p : String → Option Int) (n : ℚ → Int)
    {df : DFrame} {name nm : String} {i : Nat}
    (hidx : nameIdx df name = some i) (hne : nm ≠ name)
    (h : ColFixed p n df name i) :
    ColFixed p n (convertDateCol p n nm df) name i := by
  unfold convertDateCol
  split
  · exact h
  next j heq =>
    have hj2 : nameIdx df nm = some j := heq
    have hij : j ≠ i := by
      intro he
      subst he
      exact hne ((nameIdx_name hj2).symm.trans (nameIdx_name hidx))
    by_cases hall : df.rows.all
        (fun r => (cellToDatetime p n (r.getD j Val.null)).isSome) = true
    · rw [hall]
      simp only [if_true]
      constructor
      · rw [List.getD_eq_getElem?_getD, List.getElem?_set_ne hij, ← List.getD_eq_getElem?_getD]
        exact h.1
      · intro r2 hr2 hlen
        rcases List.mem_map.mp hr2 with ⟨r, hr, hmap⟩
        subst hmap
        rw [List.length_set] at hlen
        rw [List.getD_eq_getElem?_getD, List.getElem?_set_ne hij, ← List.getD_eq_getElem?_getD]
        exact h.2 r hr hlen
    · rw [if_neg hall]
      exact h

theorem coerceNumericCols_preserves (p : String → Option Int) (n : ℚ → Int)
    {df : DFrame} {name : String} {i : Nat}
    (h : ColFixed p n df name i) :
    ColFixed p n (coerceNumericCols df) name i := by
  refine ⟨h.1, ?_⟩
  intro r2 hr2 hlen
  rcases List.mem_map.mp hr2 with ⟨r, hr, hmap⟩
  subst hmap
  rw [coerceRowAux_length] at hlen
  have hnn : (df.cols.getD i ("", DType.object)).2 ≠ DType.numeric := by
    rw [h.1]
    simp
  rw [coerceRowAux_getD_of_not_numeric df.cols r i hnn]
  exact h.2 r hr hlen

theorem colFixed_of_subset {p : String → Option Int} {n : ℚ → Int}
    {df df2 : DFrame} {name : String} {i : Nat}
    (hc : df2.cols = df.cols) (hr : ∀ r ∈ df2.rows, r ∈ df.rows)
    (h : ColFixed p n df name i) : ColFixed p n df2 name i :=
  ⟨hc ▸ h.1, fun r hrr => h.2 r (hr r hrr)⟩

/-- Date conversion preserves the sequence of column names. -/
theorem convertDateCol_cols_map_fst (p : String → Option Int) (n : ℚ → Int)
    (nm : String) (df : DFrame) :
    (convertDateCol p n nm df).cols.map Prod.fst = df.cols.map Prod.fst := by
  unfold convertDateCol
  split
  · rfl
  next j heq =>
    have heq2 : nameIdx df nm = some j := heq
    split
    · simp only [List.map_set]
      apply set_of_getElem?
      rw [List.getElem?_eq_getElem (by simpa using nameIdx_lt heq2)]
      have := nameIdx_name heq2
      rw [List.getD_eq_getElem?_getD, List.getElem?_eq_getElem (nameIdx_lt heq2),
          Option.getD_some] at this
      simp [this]
    · rfl

/-- Column lookups by name are determined by the name sequence. -/
theorem nameIdx_eq_of_cols_map_fst {df df2 : DFrame}
    (h : df2.cols.map Prod.fst = df.cols.map Prod.fst) (name : String) :
    nameIdx df2 name = nameIdx df name := by
  unfold nameIdx
  have h2 := congrArg (fun l => List.findIdx? (fun s => s == name) l) h
  simp only [List.findIdx?_map] at h2
  exact h2

/-- Date conversion does not move columns. -/
theorem nameIdx_convertDateCol (p : String → Option Int) (n : ℚ → Int)
    (nm : String) (df : DFrame) (name : String) :
    nameIdx (convertDateCol p n nm df) name = nameIdx df name :=
  nameIdx_eq_of_cols_map_fst (congrArg (List.map Prod.fst)
    (congrArg DFrame.cols rfl) ▸ convertDateCol_cols_map_fst p n nm df) name

/-- Date conversion preserves the number of rows. -/
theorem convertDateCol_rows_length (p : String → Option Int) (n : ℚ → Int)
    (nm : String) (df : DFrame) :
    (convertDateCol p n nm df).rows.length = df.rows.length := by
  unfold convertDateCol
  split
  · rfl
  · split
    · simp
    · rfl

/-- Cells of columns other than the converted one are unchanged. -/
theorem convertDateCol_getD_ne (p : String → Option Int) (n : ℚ → Int)
    {nm : String} {df : DFrame} {j : Nat}
    (hj : ∀ jx, nameIdx df nm = some jx → jx ≠ j) :
    ∀ r2 ∈ (convertDateCol p n nm df).rows, ∃ r ∈ df.rows,
      r2.getD j Val.null = r.getD j Val.null := by
  unfold convertDateCol
  split
  · exact fun r2 hr2 => ⟨r2, hr2, rfl⟩
  next jx heq =>
    have hne := hj jx heq
    split
    · intro r2 hr2
      rcases List.mem_map.mp hr2 with ⟨r, hr, hmap⟩
      subst hmap
      refine ⟨r, hr, ?_⟩
      rw [List.getD_eq_getElem?_getD, List.getElem?_set_ne hne, ← List.getD_eq_getElem?_getD]
    · exact fun r2 hr2 => ⟨r2, hr2, rfl⟩

/-- A list with at most one element is vacuously pairwise-related. -/
theorem pairwise_of_len_le_one {α : Type} {R : α → α → Prop} :
    ∀ {l : List α}, l.length ≤ 1 → l.Pairwise R
  | [], _ => List.Pairwise.nil
  | [_], _ => by simp
  | _ :: _ :: _, h => by simp at h

theorem convertDateCol_eq_self (p : String → Option Int) (n : ℚ → Int)
    {df : DFrame} {name : String}
    (h : ∀ i, nameIdx df name = some i → ColFixed p n df name i) :
    convertDateCol p n name df = df := by
  unfold convertDateCol
  split
  · rfl
  next i heq =>
    have heq2 : nameIdx df name = some i := heq
    rcases h i heq2 with ⟨hcol, hcell⟩
    have hall : df.rows.all
        (fun r => (cellToDatetime p n (r.getD i Val.null)).isSome) = true := by
      simp only [List.all_eq_true]
      intro r hr
      by_cases hlen : i < r.length
      · rw [hcell r hr hlen]
        rfl
      · rw [List.getD_eq_getElem?_getD, List.getElem?_eq_none (by omega), Option.getD_none]
        rfl
    rw [hall]
    simp only [if_true]
    have hcols : df.cols.set i (name, DType.datetime) = df.cols := by
      rw [← hcol]
      exact set_getD_self df.cols i ("", DType.object)
    have hrows : df.rows.map
        (fun r => r.set i ((cellToDatetime p n (r.getD i Val.null)).getD Val.nat)) = df.rows := by
      apply map_eq_self
      intro r hr
      by_cases hlen : i < r.length
      · rw [hcell r hr hlen, Option.getD_some]
        exact set_getD_self r i Val.null
      · exact List.set_eq_of_length_le (by omega)
    rw [hcols, hrows]

theorem coerceNumericCols_eq_self {df : DFrame}
    (h : ∀ r ∈ df.rows, coerceRowAux df.cols r = r) :
    coerceNumericCols df = df := by
  unfold coerceNumericCols
  rw [map_eq_self h]

theorem dropDupDates_eq_self {df : DFrame}
    (h : ∀ i, nameIdx df "date" = some i →
      df.rows.Pairwise (fun a b => keyAt i a ≠ keyAt i b)) :
    dropDupDates df = df := by
  unfold dropDupDates
  split
  · rfl
  next i heq =>
    split
    · rw [keepLast_eq_self i (h i heq)]
    · rfl

theorem sortByFirstCol_eq_self {df : DFrame}
    (h : df.rows.Pairwise (fun a b => valLe (keyAt 0 a) (keyAt 0 b) = true)) :
    sortByFirstCol df = df := by
  unfold sortByFirstCol
  rw [List.mergeSort_of_sorted h]

theorem dropDupDates_cols (df : DFrame) : (dropDupDates df).cols = df.cols := by
  unfold dropDupDates
  split
  · rfl
  · split <;> rfl

theorem dropDupDates_rows_mem {df : DFrame} {r : List Val}
    (h : r ∈ (dropDupDates df).rows) : r ∈ df.rows := by
  unfold dropDupDates at h
  split at h
  · exact h
  next i heq =>
    split at h
    · exact (keepLast_sublist i df.rows).mem h
    · exact h

theorem sortByFirstCol_rows_mem {df : DFrame} {r : List Val}
    (h : r ∈ (sortByFirstCol df).rows) : r ∈ df.rows := by
  unfold sortByFirstCol at h
  exact List.mem_mergeSort.mp h

theorem convertDateCol_cols_length (p : String → Option Int) (n : ℚ → Int)
    (nm : String) (df : DFrame) :
    (convertDateCol p n nm df).cols.length = df.cols.length := by
  have h := congrArg List.length (convertDateCol_cols_map_fst p n nm df)
  simpa using h

/-- Two distinct column names never resolve to the same index. -/
theorem nameIdx_ne {df : DFrame} {n1 n2 : String} {i1 i2 : Nat}
    (h1 : nameIdx df n1 = some i1) (h2 : nameIdx df n2 = some i2)
    (hne : n1 ≠ n2) : i1 ≠ i2 := by
  intro he
  subst he
  exact hne ((nameIdx_name h1).symm.trans (nameIdx_name h2))

/-- The normalizer is the identity on frames whose date columns are fully
converted, whose numeric columns hold no `±inf`/`NaN`, whose `date` keys
are pairwise distinct, and whose rows are sorted by the first column. -/
theorem cleanDataFrame_eq_self (p : String → Option Int) (n : ℚ → Int) {df : DFrame}
    (hdate : ∀ name ∈ dateColNames, ∀ i, nameIdx df name = some i → ColFixed p n df name i)
    (hnum : ∀ r ∈ df.rows, coerceRowAux df.cols r = r)
    (hdedup : ∀ i, nameIdx df "date" = some i →
      df.rows.Pairwise (fun a b => keyAt i a ≠ keyAt i b))
    (hsort : df.rows.Pairwise (fun a b => valLe (keyAt 0 a) (keyAt 0 b) = true)) :
    cleanDataFrame p n df = df := by
  have hA : convertDateCol p n "date" df = df :=
    convertDateCol_eq_self p n (hdate "date" (by simp [dateColNames]))
  have hB : convertDateCol p n "week" df = df :=
    convertDateCol_eq_self p n (hdate "week" (by simp [dateColNames]))
  have hC : convertDateCol p n "timestamp" df = df :=
    convertDateCol_eq_self p n (hdate "timestamp" (by simp [dateColNames]))
  have h1 : convertDateCols p n df = df := by
    unfold convertDateCols dateColNames
    simp only [List.foldl_cons, List.foldl_nil]
    rw [hA, hB, hC]
  have h2 : coerceNumericCols df = df := coerceNumericCols_eq_self hnum
  have h3 : dropDupDates df = df := dropDupDates_eq_self hdedup
  have h4 : sortByFirstCol df = df := sortByFirstCol_eq_self hsort
  unfold cleanDataFrame
  by_cases he : df.rows.isEmpty || df.cols.isEmpty
  · rw [if_pos he]
  · rw [if_neg he]
    simp only [h1, h2, h3]
    have hcol : df.cols.isEmpty = false := by
      rcases Bool.or_eq_false_iff.mp (Bool.eq_false_iff.mpr he) with ⟨_, hc⟩
      exact hc
    rw [hcol]
    simpa using h4

/-- Unfolding equation for the normalizer pipeline. -/
theorem cleanDataFrame_eq (p : String → Option Int) (n : ℚ → Int) (df : DFrame) :
    cleanDataFrame p n df =
      if df.rows.isEmpty || df.cols.isEmpty then df
      else
        if (dropDupDates (coerceNumericCols (convertDateCols p n df))).cols.isEmpty then
          dropDupDates (coerceNumericCols (convertDateCols p n df))
        else sortByFirstCol (dropDupDates (coerceNumericCols (convertDateCols p n df))) :=
  rfl

/-- C3 (amended): the normalizer is idempotent on every table whose
date-like columns (`date`, `week`, `timestamp`) fully convert — that is,
`pd.to_datetime` succeeds on every cell of each such column present — and
whose first-column sort keys are pairwise distinct after conversion,
coercion and de-duplication.  On such tables the cleaned frame is
moreover strictly sorted on its first column (second conjunct), so its
sorted permutation is unique and independent of the sorting algorithm:
the program's unstable default quicksort and the model's mergeSort agree
on every frame the theorem speaks about, and a second normalization
changes nothing.  (The unrestricted statement is refuted by
`clean_dataframe_not_idempotent`: a date-like column that fails to parse
only because of a row that de-duplication later removes becomes
convertible on the second pass.  Tables with tied first-column keys are
excluded: pandas leaves their relative order unspecified.) -/
theorem clean_dataframe_idempotent_of_dates_parse
    (p : String → Option Int) (n : ℚ → Int) (df : DFrame)
    (H : ∀ name ∈ dateColNames,
      ((nameIdx df name).all fun i =>
        df.rows.all fun r => (cellToDatetime p n (r.getD i Val.null)).isSome) = true)
    (H2 : ((dropDupDates (coerceNumericCols (convertDateCols p n df))).rows.map
      (keyAt 0)).Pairwise (fun a b => a ≠ b)) :
    cleanDataFrame p n (cleanDataFrame p n df) = cleanDataFrame p n df ∧
    (df.rows.isEmpty = false → df.cols.isEmpty = false →
      ((cleanDataFrame p n df).rows.map (keyAt 0)).Pairwise
        (fun a b => valLe a b = true ∧ a ≠ b)) := by
  by_cases he : (df.rows.isEmpty || df.cols.isEmpty) = true
  · have hid : cleanDataFrame p n df = df := by
      rw [cleanDataFrame_eq, if_pos he]
    constructor
    · rw [hid]
      exact hid
    · intro h1 h2
      rw [Bool.or_eq_true] at he
      rcases he with hh | hh
      · rw [h1] at hh
        simp at hh
      · rw [h2] at hh
        simp at hh
  · have Hu : ∀ name ∈ dateColNames, ∀ i, nameIdx df name = some i →
        ∀ r ∈ df.rows, (cellToDatetime p n (r.getD i Val.null)).isSome = true := by
      intro name hn i hi r hr
      have hh := H name hn
      rw [hi] at hh
      rw [Option.all_some, List.all_eq_true] at hh
      exact hh r hr
    have hC3 : convertDateCols p n df =
        convertDateCol p n "timestamp" (convertDateCol p n "week"
          (convertDateCol p n "date" df)) := by
      unfold convertDateCols dateColNames
      simp only [List.foldl_cons, List.foldl_nil]
    rw [hC3] at H2
    rw [cleanDataFrame_eq p n df, if_neg he, hC3]
    set dA := convertDateCol p n "date" df with hdA
    set dB := convertDateCol p n "week" dA with hdB
    set dC := convertDateCol p n "timestamp" dB with hdC
    set dD := dropDupDates (coerceNumericCols dC) with hdD
    have hNcols : (coerceNumericCols dC).cols = dC.cols := rfl
    have hDcols : dD.cols = dC.cols := by
      rw [hdD, dropDupDates_cols]
      exact hNcols
    have hCcolsLen : dC.cols.length = df.cols.length := by
      rw [hdC, convertDateCol_cols_length, hdB, convertDateCol_cols_length,
          hdA, convertDateCol_cols_length]
    have hDcolsEmpty : ¬ (dD.cols.isEmpty = true) := by
      rw [hDcols]
      rw [Bool.or_eq_true, not_or] at he
      rcases he with ⟨_, hc⟩
      intro hcc
      apply hc
      rw [List.isEmpty_iff_length_eq_zero] at hcc ⊢
      omega
    rw [if_neg hDcolsEmpty]
    -- nameIdx is stable along the whole pipeline
    have nIdx : ∀ nm, nameIdx (sortByFirstCol dD) nm = nameIdx df nm := by
      intro nm
      have e2 : nameIdx (sortByFirstCol dD) nm = nameIdx dC nm := by
        unfold nameIdx
        show dD.cols.findIdx? (fun p => p.1 == nm) = dC.cols.findIdx? (fun p => p.1 == nm)
        rw [hDcols]
      rw [e2, hdC, nameIdx_convertDateCol, hdB, nameIdx_convertDateCol,
          hdA, nameIdx_convertDateCol]
    -- ColFixed transports from the converted frame to the final frame
    have transC : ∀ name i, ColFixed p n dC name i →
        ColFixed p n (sortByFirstCol dD) name i := by
      intro name i h
      refine @colFixed_of_subset p n (coerceNumericCols dC) (sortByFirstCol dD) name i ?_ ?_
          (coerceNumericCols_preserves p n h)
      · show dD.cols = (coerceNumericCols dC).cols
        rw [hDcols]
        exact hNcols.symm
      · intro r hr
        rw [hdD] at hr
        exact dropDupDates_rows_mem (sortByFirstCol_rows_mem hr)
    refine ⟨?_, ?_⟩
    · apply cleanDataFrame_eq_self p n
      · -- all date-like columns are fixed
        intro name hn i hi
        rw [nIdx name] at hi
        have hiA : nameIdx dA name = some i := by
          rw [hdA, nameIdx_convertDateCol]
          exact hi
        have hiB : nameIdx dB name = some i := by
          rw [hdB, nameIdx_convertDateCol]
          exact hiA
        rcases show name = "date" ∨ name = "week" ∨ name = "timestamp" by
            simpa [dateColNames] using hn with rfl | rfl | rfl
        · have base : ColFixed p n dA "date" i :=
            convertDateCol_establishes p n hi (Hu "date" (by simp [dateColNames]) i hi)
          have s1 : ColFixed p n dB "date" i := by
            rw [hdB]
            exact convertDateCol_preserves p n hiA (by decide) base
          have s2 : ColFixed p n dC "date" i := by
            rw [hdC]
            exact convertDateCol_preserves p n hiB (by decide) s1
          exact transC "date" i s2
        · have hpA : ∀ r2 ∈ dA.rows, (cellToDatetime p n (r2.getD i Val.null)).isSome = true := by
            intro r2 hr2
            have hj : ∀ jx, nameIdx df "date" = some jx → jx ≠ i :=
              fun jx hjx => nameIdx_ne hjx hi (by decide)
            rw [hdA] at hr2
            rcases convertDateCol_getD_ne p n hj r2 hr2 with ⟨r, hr, hee⟩
            rw [hee]
            exact Hu "week" (by simp [dateColNames]) i hi r hr
          have base : ColFixed p n dB "week" i := by
            rw [hdB]
            exact convertDateCol_establishes p n hiA hpA
          have s1 : ColFixed p n dC "week" i := by
            rw [hdC]
            exact convertDateCol_preserves p n hiB (by decide) base
          exact transC "week" i s1
        · have hpA : ∀ r2 ∈ dA.rows, (cellToDatetime p n (r2.getD i Val.null)).isSome = true := by
            intro r2 hr2
            have hj : ∀ jx, nameIdx df "date" = some jx → jx ≠ i :=
              fun jx hjx => nameIdx_ne hjx hi (by decide)
            rw [hdA] at hr2
            rcases convertDateCol_getD_ne p n hj r2 hr2 with ⟨r, hr, hee⟩
            rw [hee]
            exact Hu "timestamp" (by simp [dateColNames]) i hi r hr
          have hpB : ∀ r2 ∈ dB.rows, (cellToDatetime p n (r2.getD i Val.null)).isSome = true := by
            intro r2 hr2
            have hj : ∀ jx, nameIdx dA "week" = some jx → jx ≠ i := by
              intro jx hjx
              rw [hdA, nameIdx_convertDateCol] at hjx
              exact nameIdx_ne hjx hi (by decide)
            rw [hdB] at hr2
            rcases convertDateCol_getD_ne p n hj r2 hr2 with ⟨r1, hr1, hee⟩
            rw [hee]
            exact hpA r1 hr1
          have base : ColFixed p n dC "timestamp" i := by
            rw [hdC]
            exact convertDateCol_establishes p n hiB hpB
          exact transC "timestamp" i base
      · -- numeric columns carry no NaN or inf
        intro r hr
        have hrN : r ∈ (coerceNumericCols dC).rows := by
          rw [hdD] at hr
          exact dropDupDates_rows_mem (sortByFirstCol_rows_mem hr)
        rcases List.mem_map.mp hrN with ⟨r0, _, hmap⟩
        subst hmap
        show coerceRowAux (sortByFirstCol dD).cols (coerceRowAux dC.cols r0) =
          coerceRowAux dC.cols r0
        have : (sortByFirstCol dD).cols = dC.cols := by
          show dD.cols = dC.cols
          exact hDcols
        rw [this, coerceRowAux_idem]
      · -- date keys are pairwise distinct
        intro i hi
        rw [nIdx "date"] at hi
        have hiN : nameIdx (coerceNumericCols dC) "date" = some i := by
          show nameIdx dC "date" = some i
          rw [hdC, nameIdx_convertDateCol, hdB, nameIdx_convertDateCol,
              hdA, nameIdx_convertDateCol]
          exact hi
        have hpairD : dD.rows.Pairwise (fun a b => keyAt i a ≠ keyAt i b) := by
          rw [hdD]
          unfold dropDupDates
          split
          · next heq =>
              rw [show (coerceNumericCols dC).cols.findIdx? (fun p => p.1 == "date") =
                some i from hiN] at heq
              cases heq
          next i2 heq =>
            have : i2 = i := by
              rw [show (coerceNumericCols dC).cols.findIdx? (fun p => p.1 == "date") =
                some i from hiN] at heq
              simpa using heq.symm
            subst this
            split
            · exact keepLast_pairwise _ _
            next hlen =>
              apply pairwise_of_len_le_one
              simp only [not_lt] at hlen
              omega
        have hperm : (sortByFirstCol dD).rows.Perm dD.rows := by
          unfold sortByFirstCol
          exact List.mergeSort_perm dD.rows _
        exact (hperm.pairwise_iff (fun h => h.symm)).mpr hpairD
      · -- rows are sorted by the first column
        show (dD.rows.mergeSort fun a b => valLe (keyAt 0 a) (keyAt 0 b)).Pairwise
          (fun a b => valLe (keyAt 0 a) (keyAt 0 b) = true)
        exact List.sorted_mergeSort
          (fun a b c hab hbc => valLe_trans (keyAt 0 a) (keyAt 0 b) (keyAt 0 c) hab hbc)
          (fun a b => valLe_total (keyAt 0 a) (keyAt 0 b)) dD.rows
    · intro _ _
      have hsorted : (sortByFirstCol dD).rows.Pairwise
          (fun a b => valLe (keyAt 0 a) (keyAt 0 b) = true) := by
        show (dD.rows.mergeSort fun a b => valLe (keyAt 0 a) (keyAt 0 b)).Pairwise
          (fun a b => valLe (keyAt 0 a) (keyAt 0 b) = true)
        exact List.sorted_mergeSort
          (fun a b c hab hbc => valLe_trans (keyAt 0 a) (keyAt 0 b) (keyAt 0 c) hab hbc)
          (fun a b => valLe_total (keyAt 0 a) (keyAt 0 b)) dD.rows
      have hperm : (sortByFirstCol dD).rows.Perm dD.rows := by
        unfold sortByFirstCol
        exact List.mergeSort_perm dD.rows _
      have h2p : dD.rows.Pairwise (fun a b => keyAt 0 a ≠ keyAt 0 b) :=
        List.pairwise_map.mp H2
      have hneq : (sortByFirstCol dD).rows.Pairwise
          (fun a b => keyAt 0 a ≠ keyAt 0 b) :=
        (hperm.pairwise_iff (fun h => h.symm)).mpr h2p
      exact List.pairwise_map.mpr (hsorted.and hneq)

/-- A concrete frame whose only date-like column fully parses. -/
def wDF : DFrame :=
  { cols := [("date", DType.object), ("txs", DType.numeric)],
    rows := [[Val.str "2024-01-01", Val.num 5]] }

/-- Witness for `clean_dataframe_idempotent_of_dates_parse` at `wDF`. -/
theorem clean_dataframe_idempotent_witness :
    (cleanDataFrame cexParse cexNum (cleanDataFrame cexParse cexNum wDF) =
      cleanDataFrame cexParse cexNum wDF) ∧
    ((cleanDataFrame cexParse cexNum wDF).rows.map (keyAt 0)).Pairwise
      (fun a b => valLe a b = true ∧ a ≠ b) :=
  ⟨(clean_dataframe_idempotent_of_dates_parse cexParse cexNum wDF
      (by decide) (by decide)).1,
   (clean_dataframe_idempotent_of_dates_parse cexParse cexNum wDF
      (by decide) (by decide)).2 rfl rfl⟩

/-!
## Cache Store

Two cache implementations appear in the sources.  `DataManager` in
src/app.py (lines 146-182) persists one file per dataset key under a
hashed path, validates freshness against the file modification time, and
treats any read error as a miss.  The dashboards in
src/ronin_ecosystem_tracker.py (lines 45-67) and src/main_app.py keep a
process-global dictionary mapping keys to `(write_time, data)` pairs.
Wall-clock reads (`time.time()`, `os.path.getmtime`) become explicit
rational-number arguments; the `md5` key hashing becomes an opaque
function argument.
-/

/-- One persisted cache file: its modification time and its payload
(`none` models a corrupted or unreadable serialized payload, whose
`joblib.load` raises). -/
structure FileEntry (α : Type) where
  mtime : ℚ
  content : Option α
deriving DecidableEq, Repr

/-- The on-disk cache directory: an association list from file path to
file, queried by first match. -/
def FileCache (α : Type) : Type := List (String × FileEntry α)

/-- `DataManager._get_cache_path`: the file path derived from the dataset
key by a stable hash. -/
def cachePath (hash : String → String) (key : String) : String :=
  hash key ++ ".joblib"

/-- `config.cache_duration`: 24 hours in seconds. -/
def cacheDuration : ℚ := 24 * 3600

/-- `DataManager._is_cache_valid`: the file exists and its age
`now - mtime` is below the TTL. -/
def isCacheValidF {α : Type} (now : ℚ) (fs : FileCache α) (path : String) : Bool :=
  match fs.lookup path with
  | none => false
  | some e => decide (now - e.mtime < cacheDuration)

/-- `DataManager.get_cached_data`: if the file is valid, try to load it,
returning `None` when the load raises; otherwise return `None`. -/
def getCachedDataF {α : Type} (hash : String → String) (now : ℚ) (fs : FileCache α)
    (key : String) : Option α :=
  let path := cachePath hash key
  if isCacheValidF now fs path then
    match fs.lookup path with
    | some e => e.content
    | none => none
  else none

/-- `DataManager.cache_data`: serialize the dataset under the hashed path,
recording the current time as the modification time. -/
def cacheDataF {α : Type} (hash : String → String) (now : ℚ) (fs : FileCache α)
    (key : String) (d : α) : FileCache α :=
  (cachePath hash key, ⟨now, some d⟩) :: fs

/-- C1: the Cache Store get contract.  `put(k, d)` immediately followed by
`get(k)` returns `d` unchanged at any later time while the entry age is
below the 24-hour TTL; and `get(k)` returns `None` — the model is a total
function, mirroring that every load error is caught — whenever no entry
exists, the TTL has elapsed, or the stored payload is unreadable. -/
theorem cache_get_put_contract {α : Type} (hash : String → String) (now δ : ℚ)
    (fs : FileCache α) (key : String) (d : α) :
    (0 ≤ δ → δ < cacheDuration →
      getCachedDataF hash (now + δ) (cacheDataF hash now fs key d) key = some d) ∧
    ((fs.lookup (cachePath hash key)).isNone →
      getCachedDataF hash now fs key = none) ∧
    (∀ e, fs.lookup (cachePath hash key) = some e → cacheDuration ≤ now - e.mtime →
      getCachedDataF hash now fs key = none) ∧
    (∀ e, fs.lookup (cachePath hash key) = some e → e.content = none →
      getCachedDataF hash now fs key = none) := by
  refine ⟨?_, ?_, ?_, ?_⟩
  · intro h0 hlt
    simp only [getCachedDataF, cacheDataF, isCacheValidF, List.lookup_cons_self]
    rw [if_pos]
    simp only [decide_eq_true_eq]
    linarith
  · intro hnone
    simp only [getCachedDataF, isCacheValidF]
    rw [Option.isNone_iff_eq_none] at hnone
    simp [hnone]
  · intro e he httl
    simp only [getCachedDataF, isCacheValidF]
    simp only [he]
    rw [if_neg]
    simp only [decide_eq_true_eq, not_lt]
    linarith
  · intro e he hc
    simp only [getCachedDataF, isCacheValidF]
    simp only [he, hc]
    by_cases hv : now - e.mtime < cacheDuration
    · rw [if_pos (by simpa using hv)]
    · rw [if_neg (by simpa using hv)]

/-- Witness for `cache_get_put_contract` on a concrete store. -/
theorem cache_get_put_contract_witness :
    getCachedDataF id (0 + 10) (cacheDataF id 0 [] "k" (7 : ℕ)) "k" = some 7 ∧
    getCachedDataF id 10 ([] : FileCache ℕ) "k" = none ∧
    getCachedDataF id 100000 [("k.joblib", (⟨0, some 7⟩ : FileEntry ℕ))] "k" = none ∧
    getCachedDataF id 10 [("k.joblib", (⟨0, none⟩ : FileEntry ℕ))] "k" = none := by
  refine ⟨?_, ?_, ?_, ?_⟩
  · exact (cache_get_put_contract id 0 10 [] "k" 7).1 (by norm_num) (by norm_num [cacheDuration])
  · exact (cache_get_put_contract id 10 0 [] "k" 7).2.1 (by decide)
  · exact (cache_get_put_contract id 100000 0 _ "k" 7).2.2.1 ⟨0, some 7⟩ (by decide)
      (by norm_num [cacheDuration])
  · exact (cache_get_put_contract id 10 0 _ "k" 7).2.2.2 ⟨0, none⟩ (by decide) rfl

/-- The process-global cache `_GLOBAL_CACHE`: an association list from
cache key to `(write_time, data)`, newest binding first. -/
def GCache (α : Type) : Type := List (String × (ℚ × α))

/-- `_CACHE_TTL`: 24 hours in seconds. -/
def cacheTTL : ℚ := 86400

/-!
Execution of a `with _cache_lock:` body on CPython's `threading.Lock`,
which is not reentrant: if the running thread already holds the lock, the
acquisition blocks forever.  The flag `lockHeld` records whether this
thread holds `_cache_lock` on entry; a returned `none` means the call
blocks and never returns.
-/

/-- `is_cache_valid`: under `with _cache_lock:` (blocking if the lock is
already held), the entry exists and its age `now - write_time` is below
the TTL.  Called directly with the lock free it returns normally. -/
def isCacheValidL {α : Type} (lockHeld : Bool) (c : GCache α) (now : ℚ)
    (key : String) : Option Bool :=
  if lockHeld then none
  else
    some (match c.lookup key with
      | none => false
      | some (t, _) => decide (now - t < cacheTTL))

/-- `get_cached_data`: acquires `_cache_lock` (blocking forever if already
held) and then — still holding it — calls `is_cache_valid`, whose own
`with _cache_lock:` re-acquisition therefore blocks forever.  An inner
`none` propagates: if the nested call never returns, neither does this
one. -/
def getCachedDataL {α : Type} (lockHeld : Bool) (c : GCache α) (now : ℚ)
    (key : String) : Option (Option α) :=
  if lockHeld then none
  else
    match isCacheValidL true c now key with
    | none => none
    | some v =>
      if v then
        some (match c.lookup key with
          | some (_, d) => some d
          | none => none)
      else some none

/-- `set_cached_data`: a single `with _cache_lock:` acquisition around one
dictionary assignment; it completes whenever the lock is free on entry. -/
def setCachedDataL {α : Type} (lockHeld : Bool) (c : GCache α) (now : ℚ)
    (key : String) (d : α) : Option (GCache α) :=
  if lockHeld then none else some ((key, (now, d)) :: c)

/-- `get_cached_data` never returns, whatever the lock state on entry:
held, its own acquisition blocks; free, the nested `is_cache_valid`
acquisition blocks. -/
theorem getCachedDataL_eq_none {α : Type} (lockHeld : Bool) (c : GCache α)
    (now : ℚ) (key : String) : getCachedDataL lockHeld c now key = none := by
  cases lockHeld <;> simp [getCachedDataL, isCacheValidL]

/-- C10 (code bug): the claim describes the clear intent — cache reads are
effect-free, returning the data or `None` and never evicting — but the
code cannot exhibit it: `get_cached_data` holds the non-reentrant
`_cache_lock` while calling `is_cache_valid`, which blocks re-acquiring
it, so every `get_cached_data` call deadlocks and never returns anything
(in particular it neither returns `None` for an expired entry nor evicts
it — no statement after the probe ever runs, and no write to the cache
occurs).  `is_cache_valid` called directly with the lock free does return,
which isolates the bug to the nested acquisition. -/
theorem get_cached_data_deadlocks {α : Type} (c : GCache α) (now : ℚ) (key : String) :
    getCachedDataL false c now key = none ∧
    getCachedDataL true c now key = none ∧
    (isCacheValidL false c now key).isSome = true := by
  refine ⟨getCachedDataL_eq_none false c now key, getCachedDataL_eq_none true c now key, ?_⟩
  simp [isCacheValidL]

/-!
## Analytics Engine: Network Health Score

`RoninAnalytics.calculate_network_health_score`
(src/ronin_ecosystem_tracker.py, lines 670-767).  Column presence is
modeled by Boolean flags on the frame; the unused `games_data` parameter
of the Python method is omitted.  The source compares coefficients of
variation `std/mean` (pandas sample standard deviation) against fixed
thresholds `t` under a `mean > 0` guard; since `std = sqrt(variance) ≥ 0`,
the comparison `std/mean > t` is embedded equivalently as
`variance > t^2 * mean^2`, keeping every quantity rational. -/

/-- One row of the daily network-activity table. -/
structure DailyRow where
  daily_transactions : ℚ
  active_addresses : ℚ
  avg_gas_price_gwei : ℚ
deriving DecidableEq, Repr

/-- The daily network-activity table, with flags recording which of the
columns read by the scorer are present. -/
structure DailyFrame where
  rows : List DailyRow
  hasDailyTransactions : Bool
  hasActiveAddresses : Bool
  hasGasPrice : Bool
deriving DecidableEq, Repr

/-- The token snapshot fields read by the scorer. -/
structure TokenSnap where
  price_change_7d_pct : ℚ
deriving DecidableEq, Repr

/-- `pandas.Series.mean` over rationals (division by zero yields zero on
the empty list, which the guarded call sites never hit). -/
def qmean (l : List ℚ) : ℚ := l.sum / l.length

/-- `pandas.Series.var` with the default `ddof=1`: the sample variance,
i.e. the square of the sample standard deviation used by the source. -/
def svar (l : List ℚ) : ℚ := (l.map (fun x => (x - qmean l) ^ 2)).sum / ((l.length : ℚ) - 1)

/-- `recent_data = daily_data.tail(7)`: the most recent 7 rows. -/
def recent7 (d : DailyFrame) : List DailyRow := d.rows.drop (d.rows.length - 7)

/-- Transaction-throughput deduction (up to 20 points). -/
def throughputPenalty (d : DailyFrame) : ℚ :=
  let avg_tx := qmean ((recent7 d).map DailyRow.daily_transactions)
  if avg_tx < 500000 then 20 else if avg_tx < 800000 then 10
  else if avg_tx < 900000 then 5 else 0

/-- Network-growth-trend deduction (up to 25 points): relative change from
the first to the last transaction count of the window, guarded on a
positive first value. -/
def trendPenalty (d : DailyFrame) : ℚ :=
  if 2 ≤ (recent7 d).length then
    let txs := (recent7 d).map DailyRow.daily_transactions
    let first_tx := txs.headD 0
    let last_tx := txs.getLastD 0
    if 0 < first_tx then
      let tr := (last_tx - first_tx) / first_tx
      if tr < -(3/10) then 25 else if tr < -(15/100) then 15
      else if tr < -(1/20) then 8 else 0
    else 0
  else 0

/-- User-activity-stability deduction (up to 25 points), via the
variance-squared form of the coefficient-of-variation thresholds. -/
def usersPenalty (d : DailyFrame) : ℚ :=
  if d.hasActiveAddresses then
    let us := (recent7 d).map DailyRow.active_addresses
    let um := qmean us
    if 0 < um then
      let uv := svar us
      if (3/10)^2 * um^2 < uv then 25 else if (2/10)^2 * um^2 < uv then 15
      else if (1/10)^2 * um^2 < uv then 8 else 0
    else 0
  else 0

/-- Gas-price-stability deduction (up to 15 points). -/
def gasPenalty (d : DailyFrame) : ℚ :=
  if d.hasGasPrice then
    let gs := (recent7 d).map DailyRow.avg_gas_price_gwei
    let gm := qmean gs
    if 0 < gm then
      let gv := svar gs
      if (1/2)^2 * gm^2 < gv then 15 else if (3/10)^2 * gm^2 < gv then 8 else 0
    else 0
  else 0

/-- Token-performance deduction (up to 10 points); an absent or empty
token dictionary is falsy in the source and deducts nothing. -/
def tokenPenalty (token : Option TokenSnap) : ℚ :=
  match token with
  | none => 0
  | some t =>
    if t.price_change_7d_pct < -30 then 10
    else if t.price_change_7d_pct < -15 then 5 else 0

/-- `RoninAnalytics.calculate_network_health_score`: start from 100,
deduct the five penalty buckets, then clamp to `[0, 100]`; degenerate
inputs (missing table, empty table, missing required columns, fewer than
7 rows) short-circuit to the neutral score 50. -/
def networkHealthScore (daily : Option DailyFrame) (token : Option TokenSnap) : ℚ :=
  match daily with
  | none => 50
  | some d =>
    if d.rows.isEmpty then 50
    else if ¬(d.hasDailyTransactions ∧ d.hasActiveAddresses) then 50
    else if d.rows.length < 7 then 50
    else
      max 0 (min 100
        (100 - throughputPenalty d - trendPenalty d - usersPenalty d
          - gasPenalty d - tokenPenalty token))

/-- C2: for every daily-activity table and token snapshot the health score
lies in `[0, 100]`, and a table with fewer than 7 rows scores exactly the
neutral 50. -/
theorem network_health_score_bounds_and_guard (daily : Option DailyFrame)
    (token : Option TokenSnap) :
    (0 ≤ networkHealthScore daily token ∧ networkHealthScore daily token ≤ 100) ∧
    (∀ d, daily = some d → d.rows.length < 7 → networkHealthScore daily token = 50) := by
  constructor
  · match daily with
    | none => norm_num [networkHealthScore]
    | some d =>
      simp only [networkHealthScore]
      split_ifs <;> norm_num
  · intro d hd hlen
    subst hd
    simp only [networkHealthScore]
    split_ifs <;> rfl

/-- Witness for `network_health_score_bounds_and_guard` on a 3-row table. -/
theorem network_health_score_witness :
    networkHealthScore (some
      { rows := [⟨100, 10, 1⟩, ⟨200, 20, 1⟩, ⟨300, 30, 1⟩],
        hasDailyTransactions := true, hasActiveAddresses := true,
        hasGasPrice := true }) none = 50 :=
  (network_health_score_bounds_and_guard _ none).2 _ rfl (by decide)

/-!
## Analytics Engine: Whale Impact Score

`RoninAnalytics.calculate_whale_impact_score`
(src/ronin_ecosystem_tracker.py, lines 879-942).  The whale table is
reduced to its `total_volume_usd` column (one rational per whale row) plus
a presence flag, and the market-volume table to its `volume_usd` column
plus a presence flag — the only data the function reads. -/

/-- The whale-trade table: per-row `total_volume_usd` values and whether
that column is present. -/
structure WhaleFrame where
  volumes : List ℚ
  hasTotalVolumeCol : Bool
deriving DecidableEq, Repr

/-- The market-volume table: per-row `volume_usd` values and whether that
column is present. -/
structure VolumeFrame where
  volumes : List ℚ
  hasVolumeCol : Bool
deriving DecidableEq, Repr

/-- The estimated total market volume: the sum of the market table's
`volume_usd` column when a usable one is supplied, else twice the whale
volume (the source's documented 50 percent approximation). -/
def marketVolume (volume : Option VolumeFrame) (total_whale_volume : ℚ) : ℚ :=
  match volume with
  | some v =>
    if ¬v.volumes.isEmpty ∧ v.hasVolumeCol then v.volumes.sum
    else total_whale_volume * 2
  | none => total_whale_volume * 2

/-- `RoninAnalytics.calculate_whale_impact_score`: whale dominance (whale
volume over total market volume) times a concentration multiplier growing
with the average whale size, clamped to `[0, 100]`; degenerate inputs
return 0. -/
def whaleImpactScore (whale : Option WhaleFrame) (volume : Option VolumeFrame) : ℚ :=
  match whale with
  | none => 0
  | some w =>
    if w.volumes.isEmpty then 0
    else if ¬w.hasTotalVolumeCol then 0
    else if w.volumes.sum ≤ 0 then 0
    else if marketVolume volume w.volumes.sum ≤ 0 then 0
    else
      max 0 (min 100 (w.volumes.sum / marketVolume volume w.volumes.sum * 100 *
        (1 + qmean w.volumes / 1000000)))

/-- The fallback-market branch of the score is monotone in whale volume. -/
theorem whale_fallback_mono (s1 s2 a1 a2 : ℚ) (hs1 : 0 < s1) (hs2 : 0 < s2)
    (ha1 : 0 ≤ a1) (ha : a1 ≤ a2) :
    max 0 (min 100 (s1 / (s1 * 2) * 100 * (1 + a1 / 1000000))) ≤
      max 0 (min 100 (s2 / (s2 * 2) * 100 * (1 + a2 / 1000000))) := by
  have e1 : s1 / (s1 * 2) * 100 = 50 := by
    field_simp
    ring
  have e2 : s2 / (s2 * 2) * 100 = 50 := by
    field_simp
    ring
  rw [e1, e2]
  apply max_le_max le_rfl
  apply min_le_min le_rfl
  have hd : a1 / 1000000 ≤ a2 / 1000000 := (div_le_div_right (by norm_num)).mpr ha
  linarith

/-- The live-market branch of the score is monotone in whale volume. -/
theorem whale_live_mono (s1 s2 a1 a2 M : ℚ) (hs1 : 0 < s1) (hs : s1 ≤ s2)
    (hM : 0 < M) (ha1 : 0 ≤ a1) (ha : a1 ≤ a2) :
    max 0 (min 100 (s1 / M * 100 * (1 + a1 / 1000000))) ≤
      max 0 (min 100 (s2 / M * 100 * (1 + a2 / 1000000))) := by
  apply max_le_max le_rfl
  apply min_le_min le_rfl
  have h1 : s1 / M * 100 ≤ s2 / M * 100 := by
    have hdd : s1 / M ≤ s2 / M := (div_le_div_right hM).mpr hs
    nlinarith
  have h2 : (1 : ℚ) + a1 / 1000000 ≤ 1 + a2 / 1000000 := by
    have hdd : a1 / 1000000 ≤ a2 / 1000000 := (div_le_div_right (by norm_num)).mpr ha
    linarith
  have hx1 : 0 ≤ s1 / M * 100 := by positivity
  have hy1 : (0 : ℚ) ≤ 1 + a1 / 1000000 := by linarith
  nlinarith

theorem whaleImpactScore_nonneg (whale : Option WhaleFrame) (vol : Option VolumeFrame) :
    0 ≤ whaleImpactScore whale vol := by
  rcases whale with _ | w
  · simp [whaleImpactScore]
  · simp only [whaleImpactScore]
    split_ifs <;> first | norm_num | exact le_max_left 0 _

theorem whaleImpactScore_le_100 (whale : Option WhaleFrame) (vol : Option VolumeFrame) :
    whaleImpactScore whale vol ≤ 100 := by
  rcases whale with _ | w
  · simp [whaleImpactScore]
  · simp only [whaleImpactScore]
    split_ifs <;> first | norm_num | exact max_le (by norm_num) (min_le_left 100 _)

theorem whaleImpactScore_of_nonpos {w : WhaleFrame} (vol : Option VolumeFrame)
    (hs : w.volumes.sum ≤ 0) : whaleImpactScore (some w) vol = 0 := by
  simp only [whaleImpactScore]
  split_ifs with h1 h2 h3 h4 <;> first | rfl | exact absurd hs h3

/-- C8: zero whale volume gives a zero impact score; the score is clamped
to `[0, 100]`; and holding the market-volume table and all other
whale-table attributes (row count, column presence) fixed, the score is
monotonically non-decreasing in total whale volume. -/
theorem whale_impact_zero_and_monotone (whale : Option WhaleFrame)
    (vol : Option VolumeFrame) (w1 w2 : WhaleFrame) :
    (∀ w, whale = some w → w.volumes.sum = 0 → whaleImpactScore whale vol = 0) ∧
    (0 ≤ whaleImpactScore whale vol ∧ whaleImpactScore whale vol ≤ 100) ∧
    (w1.volumes.length = w2.volumes.length → w1.hasTotalVolumeCol = true →
      w2.hasTotalVolumeCol = true → w1.volumes.sum ≤ w2.volumes.sum →
      whaleImpactScore (some w1) vol ≤ whaleImpactScore (some w2) vol) := by
  refine ⟨?_, ⟨whaleImpactScore_nonneg whale vol, whaleImpactScore_le_100 whale vol⟩, ?_⟩
  · intro w hw hsum
    subst hw
    exact whaleImpactScore_of_nonpos vol (le_of_eq hsum)
  · intro hlen hc1 hc2 hsum
    by_cases hs1 : w1.volumes.sum ≤ 0
    · rw [whaleImpactScore_of_nonpos vol hs1]
      exact whaleImpactScore_nonneg (some w2) vol
    · have hp1 : 0 < w1.volumes.sum := not_le.mp hs1
      have hp2 : 0 < w2.volumes.sum := lt_of_lt_of_le hp1 hsum
      have hne1 : w1.volumes.isEmpty = false := by
        rcases hv : w1.volumes with _ | ⟨x, xs⟩
        · rw [hv] at hp1
          norm_num at hp1
        · rfl
      have hne2 : w2.volumes.isEmpty = false := by
        rcases hv : w2.volumes with _ | ⟨x, xs⟩
        · rw [hv] at hp2
          norm_num at hp2
        · rfl
      have hn1 : 0 < (w1.volumes.length : ℚ) := by
        have : w1.volumes ≠ [] := by
          intro he
          rw [he] at hp1
          norm_num at hp1
        have hll := List.length_pos.mpr this
        exact_mod_cast hll
      have havg : qmean w1.volumes ≤ qmean w2.volumes := by
        unfold qmean
        rw [← hlen]
        exact (div_le_div_right hn1).mpr hsum
      have havg1 : 0 ≤ qmean w1.volumes := by
        unfold qmean
        exact div_nonneg (le_of_lt hp1) (le_of_lt hn1)
      simp only [whaleImpactScore, hne1, hne2, hc1, hc2, Bool.false_eq_true, if_false,
        not_true, if_neg hs1, if_neg (not_le.mpr hp2)]
      rcases vol with _ | v
      · simp only [marketVolume]
        rw [if_neg (by linarith : ¬ w1.volumes.sum * 2 ≤ 0),
            if_neg (by linarith : ¬ w2.volumes.sum * 2 ≤ 0)]
        exact whale_fallback_mono _ _ _ _ hp1 hp2 havg1 havg
      · by_cases hcv : ¬v.volumes.isEmpty ∧ v.hasVolumeCol
        · simp only [marketVolume, if_pos hcv]
          by_cases hS : v.volumes.sum ≤ 0
          · rw [if_pos hS, if_pos hS]
          · rw [if_neg hS, if_neg hS]
            exact whale_live_mono _ _ _ _ _ hp1 hsum (not_le.mp hS) havg1 havg
        · simp only [marketVolume, if_neg hcv]
          rw [if_neg (by linarith : ¬ w1.volumes.sum * 2 ≤ 0),
              if_neg (by linarith : ¬ w2.volumes.sum * 2 ≤ 0)]
          exact whale_fallback_mono _ _ _ _ hp1 hp2 havg1 havg

/-- Witness for `whale_impact_zero_and_monotone` on concrete tables. -/
theorem whale_impact_witness :
    whaleImpactScore (some ⟨[0, 0], true⟩) none = 0 ∧
    whaleImpactScore (some ⟨[100, 200], true⟩) (some ⟨[1000], true⟩) ≤
      whaleImpactScore (some ⟨[150, 250], true⟩) (some ⟨[1000], true⟩) := by
  constructor
  · exact (whale_impact_zero_and_monotone (some ⟨[0, 0], true⟩) none ⟨[], true⟩
      ⟨[], true⟩).1 ⟨[0, 0], true⟩ rfl (by norm_num)
  · exact (whale_impact_zero_and_monotone none (some ⟨[1000], true⟩)
      ⟨[100, 200], true⟩ ⟨[150, 250], true⟩).2.2 rfl rfl rfl (by norm_num)

/-!
## Provider Gateway: market snapshot (CoinGecko)

`RoninDataFetcher.fetch_coingecko_data` and
`RoninDataFetcher._get_coingecko_fallback_data`
(src/ronin_ecosystem_tracker.py, lines 235-334).  Dictionaries become
association lists queried by first match; `np.random.uniform` draws and
`datetime.now()` become arguments; the upstream HTTP endpoint becomes an
oracle `upstream : Nat → Option RawCG` giving the outcome of the n-th call
(`none` models a transport error or non-2xx status raised by
`raise_for_status`).

The first statement of `fetch_coingecko_data` is a `get_cached_data` call,
which deadlocks (see `getCachedDataL`), so the whole fetch is embedded in
two layers: `fetchCoingeckoDataBody` is the suite below that probe as a
function of the probe's result — in the program this code is unreachable —
and `fetchCoingeckoDataL` is the whole function, starting with the real
probe.  Both also report the number of upstream calls made; for
`fetchCoingeckoDataL` a `none` result means the call blocks and never
returns. -/

/-- A successfully transported upstream response: whether it is a JSON
object containing `market_data` (the structural validation the source
performs), and the snapshot record `_process_coingecko_data` derives from
it.  The field-by-field extraction of `_process_coingecko_data` is not
read by any claim, so the derived record is carried opaquely. -/
structure RawCG where
  hasMarketData : Bool
  processed : List (String × Val)
deriving DecidableEq, Repr

/-- `RoninDataFetcher.max_retries` (configured, never read by any fetch). -/
def max_retries : Nat := 3

/-- `RoninDataFetcher.retry_delay` (configured, never read by any fetch). -/
def retry_delay : Nat := 5

/-- `RoninDataFetcher._get_coingecko_fallback_data`: deterministic baseline
values perturbed by the bounded random draws `pv` (price variance,
`uniform(0.95, 1.05)`), `vv` (volume variance, `uniform(0.8, 1.2)`) and
the three percentage-change draws, tagged with
`data_source = "fallback"`. -/
def coingeckoFallbackData (now : String) (pv vv pc24 pc7 pc30 : ℚ)
    (apiStatus : String) : List (String × Val) :=
  [("name", Val.str "Ronin"),
   ("symbol", Val.str "RON"),
   ("price_usd", Val.num (215/100 * pv)),
   ("market_cap_usd", Val.num (700000000 * pv)),
   ("volume_24h_usd", Val.num (45000000 * vv)),
   ("circulating_supply", Val.num 325000000),
   ("total_supply", Val.num 1000000000),
   ("price_change_24h_pct", Val.num pc24),
   ("price_change_7d_pct", Val.num pc7),
   ("price_change_30d_pct", Val.num pc30),
   ("market_cap_rank", Val.num 85),
   ("tvl_usd", Val.num (180000000 * pv)),
   ("mcap_to_tvl_ratio", Val.num (389/100)),
   ("last_updated", Val.str now),
   ("data_source", Val.str "fallback"),
   ("api_status", Val.str apiStatus)]

/-- The Market Snapshot fields §3 of the specification requires. -/
def requiredSnapshotFields : List String :=
  ["name", "symbol", "price_usd", "market_cap_usd", "volume_24h_usd",
   "circulating_supply", "total_supply", "price_change_24h_pct",
   "price_change_7d_pct", "last_updated"]

/-- The suite of `fetch_coingecko_data` below the initial `get_cached_data`
probe, as a function of that probe's result (unreachable in the program,
since the probe never returns): return a non-empty cached snapshot;
fall back when no API key is configured; otherwise make one upstream
call, falling back on transport failure or on a structurally invalid
payload, and caching and tagging the processed snapshot with
`data_source = "live_api"` on success.  Returns
`(snapshot, cache entry written, upstream calls made)`. -/
def fetchCoingeckoDataBody (hasKey : Bool) (cached : Option (List (String × Val)))
    (upstream : Nat → Option RawCG) (now apiStatus : String)
    (pv vv pc24 pc7 pc30 : ℚ) :
    List (String × Val) × Option (List (String × Val)) × Nat :=
  match cached with
  | some c => (c, some c, 0)
  | none =>
    if ¬hasKey then (coingeckoFallbackData now pv vv pc24 pc7 pc30 apiStatus, none, 0)
    else
      match upstream 0 with
      | none => (coingeckoFallbackData now pv vv pc24 pc7 pc30 apiStatus, none, 1)
      | some raw =>
        if raw.hasMarketData then
          (("data_source", Val.str "live_api") :: raw.processed,
           some (("data_source", Val.str "live_api") :: raw.processed), 1)
        else (coingeckoFallbackData now pv vv pc24 pc7 pc30 apiStatus, none, 1)

/-- The fixed cache key of the snapshot fetch. -/
def coingeckoCacheKey : String := "coingecko_ron_data"

/-- `RoninDataFetcher.fetch_coingecko_data` in full: the `get_cached_data`
probe first, then the suite above.  The result is
`(outcome, upstream calls made)`, where outcome `none` means the call
blocks forever (which the probe always does) and `some (snapshot, cacheWrite)`
would be a completed call. -/
def fetchCoingeckoDataL (lockHeld : Bool) (cache : GCache (List (String × Val)))
    (qnow : ℚ) (hasKey : Bool) (upstream : Nat → Option RawCG)
    (now apiStatus : String) (pv vv pc24 pc7 pc30 : ℚ) :
    Option (List (String × Val) × Option (List (String × Val))) × Nat :=
  match getCachedDataL lockHeld cache qnow coingeckoCacheKey with
  | none => (none, 0)
  | some cachedData =>
    let r := fetchCoingeckoDataBody hasKey cachedData upstream now apiStatus pv vv pc24 pc7 pc30
    (some (r.1, r.2.1), r.2.2)

/-- C9 (code bug): the fallback-snapshot design the claim describes is
real — `_get_coingecko_fallback_data` always tags its record with
`data_source = "fallback"` and supplies a value for every required Market
Snapshot field — but the claim's "taken immediately when no credential is
configured" is broken by a slip: `fetch_coingecko_data` deadlocks in its
initial `get_cached_data` probe (line 238) before the credential check
(line 242), so the no-credential fetch never returns the fallback
snapshot, or anything else, and makes no upstream call. -/
theorem coingecko_fallback_provenance_complete (now apiStatus : String)
    (pv vv pc24 pc7 pc30 : ℚ) :
    ((coingeckoFallbackData now pv vv pc24 pc7 pc30 apiStatus).lookup "data_source" =
      some (Val.str "fallback")) ∧
    (requiredSnapshotFields.all
      (fun f => ((coingeckoFallbackData now pv vv pc24 pc7 pc30 apiStatus).lookup f).isSome)) ∧
    (∀ (lockHeld : Bool) (cache : GCache (List (String × Val))) (qnow : ℚ)
      (upstream : Nat → Option RawCG),
      fetchCoingeckoDataL lockHeld cache qnow false upstream now apiStatus
        pv vv pc24 pc7 pc30 = (none, 0)) := by
  refine ⟨?_, ?_, ?_⟩
  · simp [coingeckoFallbackData, List.lookup]
  · simp [requiredSnapshotFields, coingeckoFallbackData, List.lookup]
  · intro lockHeld cache qnow upstream
    simp [fetchCoingeckoDataL, getCachedDataL_eq_none]

/-- The upstream oracle for the C6 counterexample: the first call fails
with a transport error, a second call would succeed with a structurally
valid payload. -/
def cexUpstream : Nat → Option RawCG :=
  fun k => if k = 0 then none else some ⟨true, [("price_usd", Val.num 2)]⟩

/-- C6 counterexample: with a key configured, a cold cache, the lock free,
a failing first upstream call and a second call that would succeed (well
within `max_retries = 3`), the fetch makes zero upstream calls and never
returns any snapshot: it blocks in the initial `get_cached_data` probe.
There is no retry and no `base_delay * attempt` backoff, and the fallback
snapshot is not returned after exhausting retries — nothing is ever
returned.  (Even the unreachable suite below the probe would make exactly
one upstream call and return the fallback at once, as the last two
conjuncts record.) -/
theorem fetch_coingecko_no_retry_counterexample :
    fetchCoingeckoDataL false [] 0 true cexUpstream "t" "request_failed" 1 1 0 0 0 =
      (none, 0) ∧
    (cexUpstream 1).isSome ∧ 1 < max_retries ∧
    (fetchCoingeckoDataBody true none cexUpstream "t" "request_failed" 1 1 0 0 0).2.2 = 1 ∧
    ((fetchCoingeckoDataBody true none cexUpstream "t" "request_failed" 1 1 0 0 0).1.lookup
      "data_source" = some (Val.str "fallback")) := by
  refine ⟨?_, rfl, by norm_num [max_retries], rfl, ?_⟩
  · simp [fetchCoingeckoDataL, getCachedDataL_eq_none]
  · simp [fetchCoingeckoDataBody, cexUpstream, coingeckoFallbackData, List.lookup]

/-- C6 (amended): the snapshot fetch never retries — `max_retries` and
`retry_delay` are configured but never read — and in fact never returns a
snapshot at all: every invocation blocks in its initial `get_cached_data`
probe, with zero upstream calls made.  The unreachable suite below the
probe makes at most one upstream call and, on that single call's
transport failure, would return the fallback snapshot immediately,
caching nothing. -/
theorem fetch_coingecko_single_attempt (hasKey : Bool)
    (cached : Option (List (String × Val))) (upstream : Nat → Option RawCG)
    (now apiStatus : String) (pv vv pc24 pc7 pc30 : ℚ) :
    (∀ (lockHeld : Bool) (cache : GCache (List (String × Val))) (qnow : ℚ),
      fetchCoingeckoDataL lockHeld cache qnow hasKey upstream now apiStatus
        pv vv pc24 pc7 pc30 = (none, 0)) ∧
    (fetchCoingeckoDataBody hasKey cached upstream now apiStatus pv vv pc24 pc7 pc30).2.2 ≤ 1 ∧
    (hasKey = true → cached = none → upstream 0 = none →
      fetchCoingeckoDataBody hasKey cached upstream now apiStatus pv vv pc24 pc7 pc30 =
        (coingeckoFallbackData now pv vv pc24 pc7 pc30 apiStatus, none, 1)) := by
  refine ⟨?_, ?_, ?_⟩
  · intro lockHeld cache qnow
    simp [fetchCoingeckoDataL, getCachedDataL_eq_none]
  · rcases cached with _ | c
    · simp only [fetchCoingeckoDataBody]
      split_ifs
      all_goals
        rcases hu : upstream 0 with _ | raw <;>
          first
            | (by_cases hm : raw.hasMarketData = true <;> simp [hu, hm])
            | simp [hu]
    · norm_num [fetchCoingeckoDataBody]
  · intro hk hc hu
    subst hk
    subst hc
    simp [fetchCoingeckoDataBody, hu]

/-- Witness for `fetch_coingecko_single_attempt` on a concrete failing
upstream. -/
theorem fetch_coingecko_single_attempt_witness :
    fetchCoingeckoDataL false [] 0 true (fun _ => none) "t" "s" 1 1 0 0 0 = (none, 0) ∧
    fetchCoingeckoDataBody true none (fun _ => none) "t" "s" 1 1 0 0 0 =
      (coingeckoFallbackData "t" 1 1 0 0 0 "s", none, 1) :=
  ⟨(fetch_coingecko_single_attempt true none (fun _ => none) "t" "s" 1 1 0 0 0).1 false [] 0,
   (fetch_coingecko_single_attempt true none (fun _ => none) "t" "s" 1 1 0 0 0).2.2
     rfl rfl rfl⟩

/-!
## Provider Gateway: query results (Dune)

`RoninDataFetcher.fetch_dune_query`, `_load_query_config` and
`_get_dune_fallback_data` (src/ronin_ecosystem_tracker.py, lines 162-656).
The upstream `dune.get_latest_result` call becomes a `DuneOutcome` value;
the randomized synthetic frames of seven fallback branches are carried by
an oracle `gen` (no claim reads their content), while the two
constant-literal branches are transcribed in full and the unknown-key
branch returns an empty frame as in the source.

As with the snapshot fetch, the first statement of `fetch_dune_query` is a
`get_cached_data` call, which deadlocks (see `getCachedDataL`); the fetch
is therefore embedded as `fetchDuneQueryBody` — the suite below that
probe, unreachable in the program — plus `fetchDuneQueryL`, the whole
function starting with the real probe, whose `none` outcome means the
call blocks and never returns. -/

/-- `RoninDataFetcher._load_query_config`: the static query registry. -/
def duneQueries : List (String × Nat) :=
  [("games_overall_activity", 5779698),
   ("games_daily_activity", 5781579),
   ("ronin_daily_activity", 5779439),
   ("user_activation_retention", 5783320),
   ("ron_current_holders", 5783623),
   ("ron_segmented_holders", 5785491),
   ("wron_katana_pairs", 5783967),
   ("wron_whale_tracking", 5784215),
   ("wron_volume_liquidity", 5784210),
   ("wron_hourly_activity", 5785066),
   ("wron_weekly_segmentation", 5785149)]

/-- The constant fallback frame of the `games_overall_activity` branch. -/
def gamesOverallFallback : DFrame :=
  { cols := [("contract_address", DType.object), ("project_name", DType.object),
             ("total_transactions", DType.numeric), ("unique_users", DType.numeric),
             ("total_gas_used", DType.numeric), ("avg_gas_per_tx", DType.numeric)],
    rows :=
      [[Val.str "0x32950db2a7164ae833121501c797d79e7b79d74c", Val.str "Axie Infinity",
        Val.num 15000000, Val.num 2800000, Val.num 45000000000, Val.num 3000],
       [Val.str "0x97a9107c1793bc407d6f527b77e7fff4d812bece", Val.str "The Machines Arena",
        Val.num 2500000, Val.num 180000, Val.num 8500000000, Val.num 3400],
       [Val.str "0x8c811e3c958e190f5ec15fb376533a3398620500", Val.str "Pixels",
        Val.num 1200000, Val.num 95000, Val.num 3200000000, Val.num 2667],
       [Val.str "0x1f8b0e2c7d1a4b2c3d4e5f6789abcdef01234567", Val.str "Tearing Spaces",
        Val.num 850000, Val.num 65000, Val.num 2100000000, Val.num 2471],
       [Val.str "0x234567890abcdef123456789abcdef0123456789", Val.str "Apeiron",
        Val.num 650000, Val.num 42000, Val.num 1400000000, Val.num 2154]] }

/-- The constant fallback frame of the `ron_segmented_holders` branch. -/
def ronSegmentedFallback : DFrame :=
  { cols := [("balance_range", DType.object), ("holders", DType.numeric),
             ("total_balance", DType.numeric), ("avg_balance", DType.numeric),
             ("percentage_of_holders", DType.numeric)],
    rows :=
      [[Val.str "0-1 RON", Val.num 125000, Val.num 45000, Val.num (36/100), Val.num (443/10)],
       [Val.str "1-10 RON", Val.num 85000, Val.num 420000, Val.num (494/100), Val.num (301/10)],
       [Val.str "10-100 RON", Val.num 45000, Val.num 2800000, Val.num (6222/100),
        Val.num (159/10)],
       [Val.str "100-1K RON", Val.num 18000, Val.num 8500000, Val.num (47222/100),
        Val.num (64/10)],
       [Val.str "1K-10K RON", Val.num 3500, Val.num 15600000, Val.num (445714/100),
        Val.num (12/10)],
       [Val.str "10K-100K RON", Val.num 850, Val.num 28400000, Val.num (3341176/100),
        Val.num (3/10)],
       [Val.str "100K+ RON", Val.num 125, Val.num 45200000, Val.num 361600,
        Val.num (4/100)]] }

/-- The fallback branches whose synthetic frames draw random values; their
content is supplied by the oracle `gen` since no claim reads it. -/
def duneRandomizedFallbackKeys : List String :=
  ["games_daily_activity", "ronin_daily_activity", "user_activation_retention",
   "wron_whale_tracking", "wron_volume_liquidity", "wron_hourly_activity",
   "wron_weekly_segmentation"]

/-- `RoninDataFetcher._get_dune_fallback_data`: per-key synthetic frames;
a key without a generator branch (in particular every unknown key) yields
an empty frame after a logged warning. -/
def duneFallbackData (gen : String → DFrame) (key : String) : DFrame :=
  if key = "games_overall_activity" then gamesOverallFallback
  else if key = "ron_segmented_holders" then ronSegmentedFallback
  else if key ∈ duneRandomizedFallbackKeys then gen key
  else { cols := [], rows := [] }

/-- The outcome of the upstream `dune.get_latest_result` call: a raised
exception (transport or client error), or an envelope whose `result.rows`
may be absent (`none`) or hold a frame with zero or more rows. -/
inductive DuneOutcome where
  | error
  | envelope (rows : Option DFrame)
deriving DecidableEq, Repr

/-- The suite of `fetch_dune_query` below the initial `get_cached_data`
probe, as a function of that probe's result (unreachable in the program,
since the probe never returns): return a non-`None` cached frame as-is;
with no API key or an unregistered key, return the fallback frame without
contacting upstream; otherwise call upstream once, treating a raised
error, a missing result container, or an empty `rows` list
(`DataValidationError`) as failure and returning the fallback frame
uncached; on a non-empty result, clean it, cache it and return it.
Returns `(frame, cache entry written, upstream calls made)`.  (The
success path invokes `cleanDataFrame`; no theorem below reads its value
on that path.) -/
def fetchDuneQueryBody (p : String → Option Int) (n : ℚ → Int) (gen : String → DFrame)
    (hasKey : Bool) (key : String) (cached : Option DFrame) (upstream : DuneOutcome) :
    DFrame × Option DFrame × Nat :=
  match cached with
  | some c => (c, some c, 0)
  | none =>
    if ¬hasKey ∨ (duneQueries.lookup key).isNone then (duneFallbackData gen key, none, 0)
    else
      match upstream with
      | .error => (duneFallbackData gen key, none, 1)
      | .envelope none => (duneFallbackData gen key, none, 1)
      | .envelope (some df) =>
        if df.rows.isEmpty then (duneFallbackData gen key, none, 1)
        else (cleanDataFrame p n df, some (cleanDataFrame p n df), 1)

/-- `RoninDataFetcher.fetch_dune_query` in full: the `get_cached_data`
probe on the key `"dune_" ++ key` first, then the suite above.  The
result is `(outcome, upstream calls made)`, where outcome `none` means
the call blocks forever (which the probe always does). -/
def fetchDuneQueryL (p : String → Option Int) (n : ℚ → Int) (gen : String → DFrame)
    (lockHeld : Bool) (cache : GCache DFrame) (qnow : ℚ)
    (hasKey : Bool) (key : String) (upstream : DuneOutcome) :
    Option (DFrame × Option DFrame) × Nat :=
  match getCachedDataL lockHeld cache qnow ("dune_" ++ key) with
  | none => (none, 0)
  | some cachedData =>
    let r := fetchDuneQueryBody p n gen hasKey key cachedData upstream
    (some (r.1, r.2.1), r.2.2)

/-- A key absent from the registry reaches no generator branch: the
fallback for it is the empty frame. -/
theorem duneFallbackData_of_unregistered (gen : String → DFrame) (key : String)
    (hk : duneQueries.lookup key = none) :
    duneFallbackData gen key = { cols := [], rows := [] } := by
  unfold duneFallbackData
  split_ifs with h1 h2 h3
  · subst h1
    exact absurd hk (by decide)
  · subst h2
    exact absurd hk (by decide)
  · simp only [duneRandomizedFallbackKeys, List.mem_cons, List.not_mem_nil,
      or_false] at h3
    rcases h3 with rfl | rfl | rfl | rfl | rfl | rfl | rfl <;> exact absurd hk (by decide)
  · rfl

/-- C4 counterexample: with a key configured, a cold cache, the lock free
and an upstream that would answer the registered key
`games_overall_activity` with a structurally valid zero-row result, the
fetch makes zero upstream calls, returns nothing and caches nothing: it
blocks in the initial `get_cached_data` probe.  No empty table is
returned, none is cached, and no subsequent call can be served from the
cache — contradicting the claim.  (Even the unreachable suite below the
probe would treat the zero-row result as a `DataValidationError`,
returning the 5-row synthetic fallback, not the empty table, and caching
nothing, as the last two conjuncts record.) -/
theorem fetch_dune_empty_result_counterexample :
    fetchDuneQueryL (fun _ => none) (fun _ => 0) (fun _ => { cols := [], rows := [] })
        false [] 0 true "games_overall_activity"
        (DuneOutcome.envelope (some { cols := gamesOverallFallback.cols, rows := [] })) =
      (none, 0) ∧
    (fetchDuneQueryBody (fun _ => none) (fun _ => 0) (fun _ => { cols := [], rows := [] })
        true "games_overall_activity" none
        (DuneOutcome.envelope (some { cols := gamesOverallFallback.cols, rows := [] }))).1.rows.length = 5 ∧
    (fetchDuneQueryBody (fun _ => none) (fun _ => 0) (fun _ => { cols := [], rows := [] })
        true "games_overall_activity" none
        (DuneOutcome.envelope (some { cols := gamesOverallFallback.cols, rows := [] }))).2.1 = none := by
  refine ⟨?_, ?_, ?_⟩
  · simp [fetchDuneQueryL, getCachedDataL_eq_none]
  · decide
  · decide

/-- C4 (amended): an empty successful result is never returned or cached.
Every `fetch_dune_query` call blocks in its initial `get_cached_data`
probe before any upstream call, so nothing is returned or cached at all;
and even the unreachable suite below the probe treats a zero-row
successful result as a validation failure, returning the per-key
synthetic fallback table and caching nothing (while a zero-row table
already present in the cache would be returned as-is by the
is-not-`None` check). -/
theorem fetch_dune_empty_result_fallback_uncached (p : String → Option Int)
    (n : ℚ → Int) (gen : String → DFrame) (key : String) (df c : DFrame)
    (u : DuneOutcome) :
    (∀ (lockHeld : Bool) (cache : GCache DFrame) (qnow : ℚ),
      fetchDuneQueryL p n gen lockHeld cache qnow true key u = (none, 0)) ∧
    ((duneQueries.lookup key).isSome = true → df.rows = [] →
      fetchDuneQueryBody p n gen true key none (DuneOutcome.envelope (some df)) =
        (duneFallbackData gen key, none, 1)) ∧
    fetchDuneQueryBody p n gen true key (some c) u = (c, some c, 0) := by
  refine ⟨?_, ?_, rfl⟩
  · intro lockHeld cache qnow
    simp [fetchDuneQueryL, getCachedDataL_eq_none]
  · intro hk hdf
    rcases hl : duneQueries.lookup key with _ | q
    · rw [hl] at hk
      simp at hk
    · simp [fetchDuneQueryBody, hl, hdf]

/-- Witness for `fetch_dune_empty_result_fallback_uncached` on a concrete
zero-row result and a concrete cached empty table. -/
theorem fetch_dune_empty_result_witness :
    fetchDuneQueryL (fun _ => none) (fun _ => 0) (fun _ => { cols := [], rows := [] })
        false [] 0 true "ronin_daily_activity" DuneOutcome.error = (none, 0) ∧
    fetchDuneQueryBody (fun _ => none) (fun _ => 0) (fun _ => { cols := [], rows := [] })
        true "ronin_daily_activity" none
        (DuneOutcome.envelope (some { cols := [("date", DType.object)], rows := [] })) =
      (duneFallbackData (fun _ => { cols := [], rows := [] }) "ronin_daily_activity",
        none, 1) ∧
    fetchDuneQueryBody (fun _ => none) (fun _ => 0) (fun _ => { cols := [], rows := [] })
        true "ronin_daily_activity" (some { cols := [("date", DType.object)], rows := [] })
        DuneOutcome.error =
      (({ cols := [("date", DType.object)], rows := [] } : DFrame),
        some { cols := [("date", DType.object)], rows := [] }, 0) := by
  refine ⟨?_, ?_, ?_⟩
  · exact (fetch_dune_empty_result_fallback_uncached (fun _ => none) (fun _ => 0)
      (fun _ => { cols := [], rows := [] }) "ronin_daily_activity"
      { cols := [("date", DType.object)], rows := [] }
      { cols := [], rows := [] } DuneOutcome.error).1 false [] 0
  · exact (fetch_dune_empty_result_fallback_uncached (fun _ => none) (fun _ => 0)
      (fun _ => { cols := [], rows := [] }) "ronin_daily_activity"
      { cols := [("date", DType.object)], rows := [] }
      { cols := [], rows := [] } DuneOutcome.error).2.1 (by decide) rfl
  · exact (fetch_dune_empty_result_fallback_uncached (fun _ => none) (fun _ => 0)
      (fun _ => { cols := [], rows := [] }) "ronin_daily_activity"
      { cols := [("date", DType.object)], rows := [] }
      { cols := [("date", DType.object)], rows := [] } DuneOutcome.error).2.2

/-- C5 counterexample: for the unregistered key `"nonexistent_dataset"`,
with the lock free and a cold cache, no error is surfaced to the caller —
indeed nothing is: the fetch blocks in the initial `get_cached_data`
probe, before the registry check, with zero upstream calls.  (Even the
unreachable suite below the probe would surface no error: every exception
path in the source is caught, and the suite routes the unknown key to the
fallback generator, whose output for it is an empty frame, as the last
two conjuncts record.)  The claim's fail-fast error surfacing is
contradicted either way. -/
theorem fetch_dune_unknown_key_counterexample :
    fetchDuneQueryL (fun _ => none) (fun _ => 0) (fun _ => { cols := [], rows := [] })
        false [] 0 true "nonexistent_dataset" DuneOutcome.error = (none, 0) ∧
    (fetchDuneQueryBody (fun _ => none) (fun _ => 0) (fun _ => { cols := [], rows := [] })
        true "nonexistent_dataset" none DuneOutcome.error) =
      (duneFallbackData (fun _ => { cols := [], rows := [] }) "nonexistent_dataset",
        none, 0) ∧
    (duneFallbackData (fun _ => { cols := [], rows := [] }) "nonexistent_dataset").rows
      = [] := by
  refine ⟨?_, ?_, ?_⟩
  · simp [fetchDuneQueryL, getCachedDataL_eq_none]
  · decide
  · decide

/-- C5 (amended): an unknown dataset key is never reported as an error.
The fetch blocks in its initial `get_cached_data` probe before the
registry check, contacting upstream zero times; and even the unreachable
suite below the probe would surface no error, routing the unknown key to
the fallback generator — which has no branch for it and returns an empty
table — as a normal result. -/
theorem fetch_dune_unknown_key_fallback (p : String → Option Int) (n : ℚ → Int)
    (gen : String → DFrame) (hasKey : Bool) (key : String) (u : DuneOutcome)
    (hk : duneQueries.lookup key = none) :
    (∀ (lockHeld : Bool) (cache : GCache DFrame) (qnow : ℚ),
      fetchDuneQueryL p n gen lockHeld cache qnow hasKey key u = (none, 0)) ∧
    fetchDuneQueryBody p n gen hasKey key none u = (duneFallbackData gen key, none, 0) ∧
    duneFallbackData gen key = { cols := [], rows := [] } := by
  refine ⟨?_, ?_, duneFallbackData_of_unregistered gen key hk⟩
  · intro lockHeld cache qnow
    simp [fetchDuneQueryL, getCachedDataL_eq_none]
  · simp [fetchDuneQueryBody, hk]

/-- Witness for `fetch_dune_unknown_key_fallback` on a concrete key. -/
theorem fetch_dune_unknown_key_witness :
    fetchDuneQueryL (fun _ => none) (fun _ => 0) (fun _ => { cols := [], rows := [] })
        false [] 0 true "nft_collections" DuneOutcome.error = (none, 0) ∧
    fetchDuneQueryBody (fun _ => none) (fun _ => 0) (fun _ => { cols := [], rows := [] })
        true "nft_collections" none DuneOutcome.error =
      (duneFallbackData (fun _ => { cols := [], rows := [] }) "nft_collections",
        none, 0) ∧
    duneFallbackData (fun _ => { cols := [], rows := [] }) "nft_collections" =
      { cols := [], rows := [] } :=
  ⟨(fetch_dune_unknown_key_fallback (fun _ => none) (fun _ => 0)
      (fun _ => { cols := [], rows := [] }) true "nft_collections" DuneOutcome.error
      (by decide)).1 false [] 0,
   (fetch_dune_unknown_key_fallback (fun _ => none) (fun _ => 0)
      (fun _ => { cols := [], rows := [] }) true "nft_collections" DuneOutcome.error
      (by decide)).2.1,
   (fetch_dune_unknown_key_fallback (fun _ => none) (fun _ => 0)
      (fun _ => { cols := [], rows := [] }) true "nft_collections" DuneOutcome.error
      (by decide)).2.2⟩
